import Mathlib

/-!
Shallow embedding of the bancho.js connection/protocol engine
(`src/lib/BanchoClient.js` and the `BanchoChannel` class), with proofs of
the specification's claims about it.

JS strings are embedded as `List Char`; JS object identity is embedded by
tagging each allocated domain object with a unique `objId` drawn from a
client-wide counter.  Thrown errors are `Except.error` carrying the JS
error message.  Protocol writes are collected into lists of lines.
-/

namespace Bancho

/-- Decidable equality for `Except`, so concrete runs of the fallible
operations can be checked by `decide`. -/
instance {ε α : Type} [DecidableEq ε] [DecidableEq α] : DecidableEq (Except ε α) := fun x y =>
  match x, y with
  | .ok a, .ok b =>
      if h : a = b then .isTrue (by rw [h])
      else .isFalse (fun hh => h (Except.ok.inj hh))
  | .error a, .error b =>
      if h : a = b then .isTrue (by rw [h])
      else .isFalse (fun hh => h (Except.error.inj hh))
  | .ok _, .error _ => .isFalse (fun hh => Except.noConfusion hh)
  | .error _, .ok _ => .isFalse (fun hh => Except.noConfusion hh)

/-- Modelled from the spec: `ConnectStates.js` is not under `src/`; the spec
describes it as the enum {Disconnected, Connecting, Reconnecting, Connected}
(one distinct symbol per state). -/
inductive ConnectState
  | Disconnected
  | Connecting
  | Reconnecting
  | Connected
deriving DecidableEq

/-- Events emitted by the client (`connected`, `disconnected`, `state`),
as fired by `updateState`.  Errors are carried as their message. -/
inductive BEvent
  | connected
  | disconnected (err : Option (List Char))
  | state (s : ConnectState) (err : Option (List Char))
deriving DecidableEq

/-- Embedding of a `BanchoUser` object: the allocation identity `objId`
and the `ircUsername` field set by the constructor (`new BanchoUser(this,
username)` receives the space-substituted, newline-truncated, clipped
username). -/
structure BanchoUser where
  objId : Nat
  ircUsername : List Char
deriving DecidableEq

/-- Embedding of a `BanchoChannel` object (and of its subclass
`BanchoMultiplayerChannel`, marked by `isMultiplayerChannel`).  The
`joinCallback`/`partCallback` fields hold, when a join/part is pending,
the id of the promise that the stored callback settles (`none` = JS
`null`). -/
structure BanchoChannel where
  objId : Nat
  name : List Char
  topic : List Char
  joined : Bool
  isMultiplayerChannel : Bool
  joinCallback : Option Nat
  partCallback : Option Nat
deriving DecidableEq

/-- Embedding of the `BanchoClient` fields the verified operations touch.
`hasOsuApi` is `this.osuApi != null`; `connectCallbackSet` is
`this.connectCallback != null`; `nextObjId` is the allocation counter
realising JS object identity. -/
structure BanchoClient where
  username : List Char
  password : List Char
  host : List Char
  port : Nat
  hasOsuApi : Bool
  connectState : ConnectState
  reconnect : Bool
  connectCallbackSet : Bool
  users : List (List Char × BanchoUser)
  channels : List (List Char × BanchoChannel)
  nextObjId : Nat
deriving DecidableEq

/-- JS falsiness of the constructor's string arguments: `undefined`/`null`
(here `none`) and the empty string are falsy. -/
def jsFalsy : Option (List Char) → Bool
  | none => true
  | some s => s.isEmpty

/-- Embedding of the `BanchoClient` constructor: throws when `!username ||
!password`, otherwise initialises every field.  (In the source the throw
happens before any field of the instance is assigned, so the error case
builds no client state; here that is reflected by `Except.error` carrying
no client.) -/
def banchoClientNew (username password : Option (List Char))
    (host : List Char) (port : Nat) (apiKey : Option (List Char)) :
    Except (List Char) BanchoClient :=
  if jsFalsy username || jsFalsy password then
    .error "You gotta gimme an username and a password to connect to Bancho dumbass".data
  else
    .ok { username := username.getD []
          password := password.getD []
          host := host
          port := port
          hasOsuApi := apiKey.isSome
          connectState := ConnectState.Disconnected
          reconnect := true
          connectCallbackSet := false
          users := []
          channels := []
          nextObjId := 0 }

/-- Embedding of `BanchoClient#send(data, throwIfDisconnected)`: when
Connected or Connecting, write `data + "\r\n"` to the socket (returned as
the list of performed writes); otherwise throw iff `throwIfDisconnected`.
The source function only reads `this.connectState`, so the client state is
left untouched in every branch. -/
def send (c : BanchoClient) (data : List Char) (throwIfDisconnected : Bool) :
    Except (List Char) (List (List Char)) :=
  if c.connectState = ConnectState.Connected ∨ c.connectState = ConnectState.Connecting then
    .ok [data ++ "\r\n".data]
  else if throwIfDisconnected then
    .error "Currently disconnected!".data
  else
    .ok []

/-- Embedding of `BanchoClient#updateState(newConnectState, err)`: a
transition to the current state is a no-op; otherwise the state is set and
`connected`/`disconnected`/`state` events are emitted in source order.
(The source's `Invalid connect state!` guard is unreachable here: the
`ConnectState` type has exactly the four defined states.) -/
def updateState (c : BanchoClient) (newConnectState : ConnectState)
    (err : Option (List Char)) : BanchoClient × List BEvent :=
  if newConnectState = c.connectState then (c, [])
  else
    let c' := { c with connectState := newConnectState }
    let evs :=
      (if c'.connectState = ConnectState.Connected then [BEvent.connected] else []) ++
      (if c'.connectState = ConnectState.Disconnected then [BEvent.disconnected err] else []) ++
      [BEvent.state c'.connectState err]
    (c', evs)

/-- Embedding of the ASCII case-fold performed by JS
`String.prototype.toLowerCase` on the characters Bancho usernames use:
uppercase ASCII letters map to their lowercase forms, every other
character is fixed. -/
def jsCharToLower (c : Char) : Char :=
  if 65 ≤ c.toNat ∧ c.toNat ≤ 90 then Char.ofNat (c.toNat + 32) else c

/-- Embedding of `username.replace(/ /g, "_")`, character by character. -/
def replaceSpaces (l : List Char) : List Char :=
  l.map (fun c => if c = ' ' then '_' else c)

/-- Embedding of `.split("\n")[0]`: the prefix before the first newline. -/
def truncAtNewline (l : List Char) : List Char :=
  l.takeWhile (fun c => c ≠ '\n')

/-- The username normalisation performed at the top of `getUser`:
`username.replace(/ /g, "_").split("\n")[0].substring(0, 28)`. -/
def normalizeUsername (l : List Char) : List Char :=
  (truncAtNewline (replaceSpaces l)).take 28

/-- The lookup key of the `users` cache: the normalised username,
case-folded (`.toLowerCase()`). -/
def userKey (l : List Char) : List Char :=
  (normalizeUsername l).map jsCharToLower

/-- Embedding of `BanchoClient#getUser(username)`: normalise, then return
the cached instance for the case-folded key, or create and store one
(`new BanchoUser(this, username)` receives the normalised name). -/
def getUser (c : BanchoClient) (username : List Char) : BanchoClient × BanchoUser :=
  match c.users.lookup (userKey username) with
  | some u => (c, u)
  | none =>
      let u : BanchoUser := { objId := c.nextObjId, ircUsername := normalizeUsername username }
      ({ c with users := (userKey username, u) :: c.users, nextObjId := c.nextObjId + 1 }, u)

/-- Embedding of `BanchoClient#getChannel(channelName)`.  The validity
check is the source's `channelName.indexOf("#") != 0 ||
channelName.indexOf(",") != -1 || channelName.indexOf("\x07") != -1`
(the third literal is the BEL control character, U+0007).  On a cache
miss a `BanchoMultiplayerChannel` is created when the name starts with
`#mp_` and an API client is present, else a `BanchoChannel`.  The error
is thrown before the cache is touched, so the error branch returns the
client unchanged. -/
def getChannel (c : BanchoClient) (channelName : List Char) :
    BanchoClient × Except (List Char) BanchoChannel :=
  if channelName.indexOf? '#' ≠ some 0 ∨ channelName.indexOf? ',' ≠ none ∨
      channelName.indexOf? '\x07' ≠ none then
    (c, .error "Invalid channel name!".data)
  else
    match c.channels.lookup channelName with
    | some ch => (c, .ok ch)
    | none =>
        let isMp := "#mp_".data.isPrefixOf channelName && c.hasOsuApi
        let ch : BanchoChannel :=
          { objId := c.nextObjId, name := channelName, topic := [], joined := false
            isMultiplayerChannel := isMp, joinCallback := none, partCallback := none }
        ({ c with channels := (channelName, ch) :: c.channels, nextObjId := c.nextObjId + 1 },
         .ok ch)

/-- Result of a synchronous `connect()` call: the client afterwards, the
events emitted, whether `initSocket`/`client.connect` ran, and the
immediate rejection if any.  (The three authentication lines are sent in
the socket's asynchronous connect callback, outside this synchronous
step.) -/
structure ConnectResult where
  client : BanchoClient
  events : List BEvent
  socketOpened : Bool
  rejected : Option (List Char)
deriving DecidableEq

/-- Embedding of the synchronous body of `BanchoClient#connect()`: when
already Connected or Connecting it rejects at once, touching nothing;
otherwise it installs the connect callback, transitions to Connecting,
re-enables reconnection and initialises/opens the socket, in source
order. -/
def connect (c : BanchoClient) : ConnectResult :=
  if c.connectState = ConnectState.Connected ∨ c.connectState = ConnectState.Connecting then
    { client := c, events := [], socketOpened := false
      rejected := some "Already connected/connecting".data }
  else
    let c1 := { c with connectCallbackSet := true }
    let p := updateState c1 ConnectState.Connecting none
    { client := { p.1 with reconnect := true }, events := p.2
      socketOpened := true, rejected := none }

/-- The reply codes and verbs dropped by `handleIrcCommand` (the
`ignoredSplits` table at the top of `BanchoClient.js`). -/
def ignoredSplits : List (List Char) :=
  ["312".data, "333".data, "366".data, "372".data, "375".data, "376".data, "QUIT".data]

/-- Embedding of `BanchoClient#handleIrcCommand(command)`: tokenize on
single spaces; drop the line when its second token is an ignored reply
code; answer `PING` by sending `PONG` plus the remaining tokens re-joined
with spaces (through `send`, hence with the trailing `\r\n` and the
connection-state check); otherwise dispatch on the second token to the
externally supplied `IrcCommands` table, abstracted as the predicate
`hasHandler`.  Returns the transport writes performed and the verb (with
its token list) handed to an application handler, if any. -/
def handleIrcCommand (hasHandler : List Char → Bool) (c : BanchoClient)
    (command : List Char) :
    Except (List Char) (List (List Char) × Option (List Char × List (List Char))) :=
  let splits := command.splitOn ' '
  if (match splits.get? 1 with
      | some t => ignoredSplits.contains t
      | none => false) then
    .ok ([], none)
  else if splits.get? 0 = some "PING".data then
    match send c ("PONG ".data ++ List.intercalate [' '] (splits.drop 1)) true with
    | .ok writes => .ok (writes, none)
    | .error e => .error e
  else
    match splits.get? 1 with
    | some verb => if hasHandler verb then .ok ([], some (verb, splits)) else .ok ([], none)
    | none => .ok ([], none)

/-- What a `_joinOrPart` call hands back to its caller: either a freshly
created `Promise` (identified by its allocation id) or, verbatim, the
callback function stored in `this[callbackProp]` (identified by the id of
the promise that callback settles). -/
inductive JoinOrPartRet
  | promise (pid : Nat)
  | callback (pid : Nat)
deriving DecidableEq

/-- The `callbackProp` argument of `_joinOrPart`: which callback field the
call reads and writes. -/
inductive CallbackProp
  | joinCallback
  | partCallback
deriving DecidableEq

/-- Embedding of `BanchoChannel#_joinOrPart(action, callbackProp)`.
`nextPid` is the promise-allocation counter.  When the designated
callback field is non-null the source returns that stored callback value
as-is and performs no send; otherwise it sends `action + " " + this.name`
(the argument handed to `banchojs.send`, collected in the middle
component), creates a new promise and stores a callback settling it. -/
def joinOrPart (ch : BanchoChannel) (action : List Char)
    (callbackProp : CallbackProp) (nextPid : Nat) :
    Except (List Char) (BanchoChannel × List (List Char) × JoinOrPartRet × Nat) :=
  if action ≠ "JOIN".data ∧ action ≠ "PART".data then
    .error "wrong action dumbass".data
  else
    match (match callbackProp with
           | CallbackProp.joinCallback => ch.joinCallback
           | CallbackProp.partCallback => ch.partCallback) with
    | some pid => .ok (ch, [], JoinOrPartRet.callback pid, nextPid)
    | none =>
        let sends := [action ++ [' '] ++ ch.name]
        let ch' := match callbackProp with
          | CallbackProp.joinCallback => { ch with joinCallback := some nextPid }
          | CallbackProp.partCallback => { ch with partCallback := some nextPid }
        .ok (ch', sends, JoinOrPartRet.promise nextPid, nextPid + 1)

/-- Embedding of `BanchoChannel#join()`. -/
def BanchoChannel.join (ch : BanchoChannel) (nextPid : Nat) :
    Except (List Char) (BanchoChannel × List (List Char) × JoinOrPartRet × Nat) :=
  joinOrPart ch "JOIN".data CallbackProp.joinCallback nextPid

/-- Embedding of `BanchoChannel#leave()`. -/
def BanchoChannel.leave (ch : BanchoChannel) (nextPid : Nat) :
    Except (List Char) (BanchoChannel × List (List Char) × JoinOrPartRet × Nat) :=
  joinOrPart ch "PART".data CallbackProp.partCallback nextPid

/-- Embedding of `data.toString().replace(/\r/g, "")`: strip every carriage return. -/
def stripCR (l : List Char) : List Char :=
  l.filter (fun c => c ≠ '\r')

/-- Embedding of the extraction loop in the socket's `data` listener:
`while ((index = unparsedData.indexOf("\n")) != -1)`, each iteration
taking the prefix before the first newline as a complete command and
dropping it (and the newline) from the buffer; the loop ends with the
partial trailing line as the new buffer. -/
def extractLines (s : List Char) : List (List Char) × List Char :=
  if h : '\n' ∈ s then
    let rest := (s.dropWhile (fun c => c ≠ '\n')).tail
    let p := extractLines rest
    (s.takeWhile (fun c => c ≠ '\n') :: p.1, p.2)
  else ([], s)
termination_by s.length
decreasing_by
  have hne : s.dropWhile (fun c => !(c = '\n')) ≠ [] := by
    intro hnil
    have h7 := (List.dropWhile_eq_nil_iff.mp hnil) '\n' h
    simp at h7
  have h1 : (s.dropWhile (fun c => !(c = '\n'))).length ≤ s.length :=
    (List.dropWhile_sublist _).length_le
  have h2 : 0 < (s.dropWhile (fun c => !(c = '\n'))).length :=
    List.length_pos.mpr hne
  simp only [ne_eq, decide_not, List.length_tail]
  omega

/-- One firing of the `data` listener, given the buffered partial line and
the accumulated delivered commands: strip carriage returns from the chunk,
append it to the buffer and run the extraction loop. -/
def onData (acc : List (List Char) × List Char) (chunk : List Char) :
    List (List Char) × List Char :=
  let p := extractLines (acc.2 ++ stripCR chunk)
  (acc.1 ++ p.1, p.2)

/-- Feeding a whole sequence of socket chunks through the framer, starting
from the empty buffer (`let unparsedData = ""`). -/
def processChunks (chunks : List (List Char)) : List (List Char) × List Char :=
  chunks.foldl onData ([], [])

/-- A concrete client in the initial Disconnected state (as produced by
the constructor), used to instantiate the universally quantified theorems
below at concrete inputs. -/
def exampleClient : BanchoClient :=
  { username := "bot".data, password := "pw".data, host := "irc.ppy.sh".data, port := 6667
    hasOsuApi := false, connectState := ConnectState.Disconnected, reconnect := true
    connectCallbackSet := false, users := [], channels := [], nextObjId := 0 }

/-- The same client once Connected. -/
def exampleConnectedClient : BanchoClient :=
  { exampleClient with connectState := ConnectState.Connected }

theorem char_toNat_inj (a b : Char) (h : a.toNat = b.toNat) : a = b :=
  Char.eq_of_val_eq (UInt32.toNat.inj h)

theorem char_toNat_ofNat_valid (n : Nat) (h : n.isValidChar) : (Char.ofNat n).toNat = n := by
  unfold Char.ofNat
  simp [h]
  unfold Char.ofNatAux Char.toNat
  rfl

/-- Code-point arithmetic of the embedded case fold. -/
theorem jsCharToLower_toNat (c : Char) :
    (jsCharToLower c).toNat =
      if 65 ≤ c.toNat ∧ c.toNat ≤ 90 then c.toNat + 32 else c.toNat := by
  unfold jsCharToLower
  by_cases h : 65 ≤ c.toNat ∧ c.toNat ≤ 90
  · simp only [h, if_true]
    exact char_toNat_ofNat_valid _ (Or.inl (by omega))
  · simp only [h, if_false]

theorem jsCharToLower_eq_space_iff (c : Char) : jsCharToLower c = ' ' ↔ c = ' ' := by
  constructor
  · intro h
    have ht : (jsCharToLower c).toNat = 32 := by rw [h]; rfl
    rw [jsCharToLower_toNat] at ht
    apply char_toNat_inj
    show c.toNat = 32
    by_cases hb : 65 ≤ c.toNat ∧ c.toNat ≤ 90
    · rw [if_pos hb] at ht; omega
    · rwa [if_neg hb] at ht
  · intro h; rw [h]; decide

theorem jsCharToLower_eq_newline_iff (c : Char) : jsCharToLower c = '\n' ↔ c = '\n' := by
  constructor
  · intro h
    have ht : (jsCharToLower c).toNat = 10 := by rw [h]; rfl
    rw [jsCharToLower_toNat] at ht
    apply char_toNat_inj
    show c.toNat = 10
    by_cases hb : 65 ≤ c.toNat ∧ c.toNat ≤ 90
    · rw [if_pos hb] at ht; omega
    · rwa [if_neg hb] at ht
  · intro h; rw [h]; decide

theorem jsCharToLower_not_upper (c : Char) :
    ¬(65 ≤ (jsCharToLower c).toNat ∧ (jsCharToLower c).toNat ≤ 90) := by
  rw [jsCharToLower_toNat]
  by_cases hb : 65 ≤ c.toNat ∧ c.toNat ≤ 90
  · rw [if_pos hb]; omega
  · rw [if_neg hb]; omega

/-- C9: constructing a `BanchoClient` with a missing (`none`) or empty
username or password throws the constructor's error synchronously; the
error branch carries no client, so no client state (caches, flags,
counters) is created. -/
theorem banchoClientNew_falsy_credentials_throws
    (username password : Option (List Char)) (host : List Char) (port : Nat)
    (apiKey : Option (List Char))
    (h : jsFalsy username = true ∨ jsFalsy password = true) :
    banchoClientNew username password host port apiKey =
      .error "You gotta gimme an username and a password to connect to Bancho dumbass".data := by
  unfold banchoClientNew
  rcases h with h | h <;> simp [h]

theorem banchoClientNew_falsy_credentials_throws_witness :
    banchoClientNew (some "bot".data) (some []) "irc.ppy.sh".data 6667 none =
      .error "You gotta gimme an username and a password to connect to Bancho dumbass".data :=
  banchoClientNew_falsy_credentials_throws (some "bot".data) (some []) "irc.ppy.sh".data 6667 none
    (Or.inr (by decide))

/-- C6: with the connection state Disconnected, `send(data, true)` throws
`Currently disconnected!`.  The error result carries no write (the write
list exists only in the `ok` branch), and `send` takes the client purely,
reflecting that the source function only reads `this.connectState`, so no
state changes either. -/
theorem send_disconnected_throws (c : BanchoClient) (data : List Char)
    (h : c.connectState = ConnectState.Disconnected) :
    send c data true = .error "Currently disconnected!".data := by
  unfold send
  rw [h]
  simp

theorem send_disconnected_throws_witness :
    send exampleClient "QUIT".data true = .error "Currently disconnected!".data :=
  send_disconnected_throws exampleClient "QUIT".data (by decide)

/-- C5: `updateState` is a no-op (same client, no events) when the new
state equals the current one; when it differs, the state is set to the
new value and a `state` event carrying the new state and the optional
error is among the emitted events. -/
theorem updateState_transition_spec (c : BanchoClient) (s : ConnectState)
    (err : Option (List Char)) :
    (s = c.connectState → updateState c s err = (c, [])) ∧
    (s ≠ c.connectState →
      (updateState c s err).1.connectState = s ∧
      BEvent.state s err ∈ (updateState c s err).2) := by
  constructor
  · intro h
    unfold updateState
    simp [h]
  · intro h
    unfold updateState
    simp [h]

theorem updateState_transition_spec_witness :
    (updateState exampleClient ConnectState.Disconnected none = (exampleClient, [])) ∧
    ((updateState exampleClient ConnectState.Connected none).1.connectState =
        ConnectState.Connected ∧
      BEvent.state ConnectState.Connected none ∈
        (updateState exampleClient ConnectState.Connected none).2) :=
  ⟨(updateState_transition_spec exampleClient ConnectState.Disconnected none).1 (by decide),
   (updateState_transition_spec exampleClient ConnectState.Connected none).2 (by decide)⟩

/-- C7: calling `connect()` while Connecting or Connected rejects at once
with the `Already connected/connecting` error, leaves the client exactly
as it was, emits nothing and does not touch the socket. -/
theorem connect_while_connected_rejects (c : BanchoClient)
    (h : c.connectState = ConnectState.Connecting ∨ c.connectState = ConnectState.Connected) :
    connect c =
      { client := c, events := [], socketOpened := false
        rejected := some "Already connected/connecting".data } := by
  unfold connect
  rcases h with h | h <;> simp [h]

theorem connect_while_connected_rejects_witness :
    connect exampleConnectedClient =
      { client := exampleConnectedClient, events := [], socketOpened := false
        rejected := some "Already connected/connecting".data } :=
  connect_while_connected_rejects exampleConnectedClient (Or.inr (by decide))

/-- C1 counterexample: the name `"#a\x07"` starts with the sentinel `#`
and contains no separator `,`, yet `getChannel` throws on it — the
source's validity check also rejects any name containing the BEL control
character (the `"\x07"` literal at the head of `getChannel`). -/
theorem getChannel_claim_false_on_bell_name :
    "#a\x07".data.indexOf? '#' = some 0 ∧
    "#a\x07".data.indexOf? ',' = none ∧
    (getChannel exampleClient "#a\x07".data).2 = .error "Invalid channel name!".data ∧
    (getChannel exampleClient "#a\x07".data).1 = exampleClient := by
  decide

/-- C1 (amended): for every name that starts with `#` and contains
neither `,` nor the BEL character U+0007, `getChannel` returns a channel
instance and caches it, so an immediate second call with the same name
returns the identical object without changing the client; and for a name
missing the `#` sentinel it throws `Invalid channel name!` leaving the
client (hence the channel cache) unchanged. -/
theorem getChannel_valid_cached_invalid_throws (c : BanchoClient) (name : List Char) :
    (name.indexOf? '#' = some 0 → name.indexOf? ',' = none → name.indexOf? '\x07' = none →
      ((getChannel c name).2).isOk = true ∧
      getChannel (getChannel c name).1 name =
        ((getChannel c name).1, (getChannel c name).2)) ∧
    (name.indexOf? '#' ≠ some 0 →
      getChannel c name = (c, .error "Invalid channel name!".data)) := by
  constructor
  · intro h1 h2 h3
    have hguard : ¬(name.indexOf? '#' ≠ some 0 ∨ name.indexOf? ',' ≠ none ∨
        name.indexOf? '\x07' ≠ none) := by
      simp [h1, h2, h3]
    cases hl : c.channels.lookup name with
    | some ch =>
        constructor <;> simp [getChannel, hguard, hl, Except.isOk, Except.toBool]
    | none =>
        constructor
        · simp [getChannel, hguard, hl, Except.isOk, Except.toBool]
        · simp [getChannel, hguard, hl, List.lookup]
  · intro h
    have hguard : name.indexOf? '#' ≠ some 0 ∨ name.indexOf? ',' ≠ none ∨
        name.indexOf? '\x07' ≠ none := Or.inl h
    simp [getChannel, hguard]

theorem getChannel_valid_cached_invalid_throws_witness :
    (((getChannel exampleClient "#osu".data).2).isOk = true ∧
      getChannel (getChannel exampleClient "#osu".data).1 "#osu".data =
        ((getChannel exampleClient "#osu".data).1, (getChannel exampleClient "#osu".data).2)) ∧
    getChannel exampleClient "osu".data =
      (exampleClient, .error "Invalid channel name!".data) :=
  ⟨(getChannel_valid_cached_invalid_throws exampleClient "#osu".data).1
      (by decide) (by decide) (by decide),
   (getChannel_valid_cached_invalid_throws exampleClient "osu".data).2 (by decide)⟩

/-- A channel whose join negotiation is pending: `joinCallback` holds the
callback that settles promise 0. -/
def pendingJoinChannel : BanchoChannel :=
  { objId := 0, name := "#osu".data, topic := [], joined := false
    isMultiplayerChannel := false, joinCallback := some 0, partCallback := none }

/-- C2: run of the source at the failing input.  A first `join()` on a
fresh channel sends one `JOIN #osu` line and hands the caller a new
promise; a second `join()` issued while the first is pending sends
nothing (the deduplication half of the claim holds) but hands the caller
the *stored callback function* (`return this[callbackProp]`), not the
in-flight promise — contradicting the claim and the source's own JSDoc
(`@returns {Promise<null>}` on `join`/`leave`, and
`joinChannel(...): Promise<null>` in `index.d.ts`). -/
theorem join_while_pending_returns_stored_callback :
    BanchoChannel.join { pendingJoinChannel with joinCallback := none } 0 =
      .ok (pendingJoinChannel, ["JOIN #osu".data], JoinOrPartRet.promise 0, 1) ∧
    BanchoChannel.join pendingJoinChannel 1 =
      .ok (pendingJoinChannel, [], JoinOrPartRet.callback 0, 1) := by
  decide

/-- C3 counterexample: the line `PING 372` has first token `PING`, yet
the client sends no reply at all — the ignored-reply-code filter runs
*before* the `PING` check in `handleIrcCommand`, and `372` is an ignored
code, so the line is dropped.  This refutes the claim that every line
whose first token is `PING` is answered, and that the answer happens
before the ignored-reply-code filter. -/
theorem handleIrcCommand_ping_ignored_code_drops :
    ("PING 372".data.splitOn ' ').get? 0 = some "PING".data ∧
    handleIrcCommand (fun _ => false) exampleConnectedClient "PING 372".data =
      .ok ([], none) := by
  decide

/-- C3 (amended): while Connected or Connecting, a decoded line whose
first token is `PING` and whose second token is not one of the ignored
reply codes is answered with exactly one write, `PONG ` followed by the
remaining tokens rejoined with spaces (plus the `\r\n` appended by
`send`), and is handed to no application handler — whatever handlers the
external `IrcCommands` table would offer. -/
theorem handleIrcCommand_ping_replies_pong (hasHandler : List Char → Bool)
    (c : BanchoClient) (command : List Char)
    (hst : c.connectState = ConnectState.Connected ∨ c.connectState = ConnectState.Connecting)
    (h0 : (command.splitOn ' ').get? 0 = some "PING".data)
    (h1 : (match (command.splitOn ' ').get? 1 with
           | some t => ignoredSplits.contains t
           | none => false) = false) :
    handleIrcCommand hasHandler c command =
      .ok (["PONG ".data ++ List.intercalate [' '] ((command.splitOn ' ').drop 1) ++
              "\r\n".data], none) := by
  unfold handleIrcCommand
  simp only [h1, h0, Bool.false_eq_true, if_false, if_pos]
  unfold send
  simp [hst]

theorem handleIrcCommand_ping_replies_pong_witness :
    handleIrcCommand (fun _ => false) exampleConnectedClient "PING :abc123".data =
      .ok (["PONG ".data ++
              List.intercalate [' '] (("PING :abc123".data.splitOn ' ').drop 1) ++
              "\r\n".data], none) :=
  handleIrcCommand_ping_replies_pong (fun _ => false) exampleConnectedClient
    "PING :abc123".data (Or.inl (by decide)) (by decide) (by decide)

/-- Substituting spaces commutes with truncation at the first newline,
because the substitution never touches or produces a newline. -/
theorem truncAtNewline_replaceSpaces (l : List Char) :
    truncAtNewline (replaceSpaces l) = replaceSpaces (truncAtNewline l) := by
  unfold truncAtNewline replaceSpaces
  rw [List.takeWhile_map]
  congr 2
  funext c
  by_cases hc : c = ' ' <;> simp [hc, Function.comp]

/-- The cache key, rewritten with the space substitution and the case
fold fused into one map over the truncated, clipped raw name. -/
theorem userKey_eq_map (l : List Char) :
    userKey l = ((truncAtNewline l).take 28).map
      (fun a => jsCharToLower (if a = ' ' then '_' else a)) := by
  unfold userKey normalizeUsername
  rw [truncAtNewline_replaceSpaces]
  unfold replaceSpaces
  rw [List.map_take, List.map_take, List.map_map]
  rfl

/-- Character-level interchangeability: equal up to ASCII case, or both
drawn from {space, underscore}. -/
def interchangeableChar (a b : Char) : Bool :=
  jsCharToLower a == jsCharToLower b || ((a == ' ' || a == '_') && (b == ' ' || b == '_'))

/-- Pointwise interchangeability of two equal-length character lists. -/
def interchangeable : List Char → List Char → Bool
  | [], [] => true
  | a :: as, b :: bs => interchangeableChar a b && interchangeable as bs
  | _, _ => false

theorem interchangeableChar_fold (a b : Char) (h : interchangeableChar a b = true) :
    jsCharToLower (if a = ' ' then '_' else a) = jsCharToLower (if b = ' ' then '_' else b) := by
  unfold interchangeableChar at h
  simp only [Bool.or_eq_true, Bool.and_eq_true, beq_iff_eq] at h
  rcases h with h | ⟨ha, hb⟩
  · by_cases hsa : a = ' '
    · have hsb : b = ' ' := by
        apply (jsCharToLower_eq_space_iff b).mp
        rw [← h, hsa]
        decide
      rw [hsa, hsb]
    · have hsb : b ≠ ' ' := by
        intro hb
        apply hsa
        apply (jsCharToLower_eq_space_iff a).mp
        rw [h, hb]
        decide
      rw [if_neg hsa, if_neg hsb, h]
  · rcases ha with ha | ha <;> rcases hb with hb | hb <;> rw [ha, hb] <;> decide

theorem interchangeable_fold (l1 l2 : List Char) (h : interchangeable l1 l2 = true) :
    l1.map (fun a => jsCharToLower (if a = ' ' then '_' else a)) =
      l2.map (fun a => jsCharToLower (if a = ' ' then '_' else a)) := by
  induction l1 generalizing l2 with
  | nil =>
      cases l2 with
      | nil => rfl
      | cons b bs => exact absurd h (by simp [interchangeable])
  | cons a as ih =>
      cases l2 with
      | nil => exact absurd h (by simp [interchangeable])
      | cons b bs =>
          unfold interchangeable at h
          rw [Bool.and_eq_true] at h
          simp only [List.map_cons]
          rw [interchangeableChar_fold a b h.1, ih bs h.2]

/-- C4: two sequential `getUser` calls whose raw names, once truncated at
the first newline and clipped to 28 characters, are pointwise
interchangeable (equal up to ASCII case or space-versus-underscore)
return the identical `BanchoUser` object, the second call leaving the
client untouched; more generally `getUser` never allocates a second
object for an already-present normalized key, so two distinct objects for
one key can never be handed out. -/
theorem getUser_interchangeable_same_instance (c : BanchoClient) (l1 l2 : List Char) :
    (interchangeable ((truncAtNewline l1).take 28) ((truncAtNewline l2).take 28) = true →
      getUser (getUser c l1).1 l2 = ((getUser c l1).1, (getUser c l1).2)) ∧
    (userKey l1 = userKey l2 →
      getUser (getUser c l1).1 l2 = ((getUser c l1).1, (getUser c l1).2)) := by
  have key : userKey l1 = userKey l2 →
      getUser (getUser c l1).1 l2 = ((getUser c l1).1, (getUser c l1).2) := by
    intro hk
    unfold getUser
    rw [← hk]
    cases hl : c.users.lookup (userKey l1) with
    | some u => simp [hl]
    | none => simp [hl, List.lookup_cons]
  refine ⟨?_, key⟩
  intro h
  apply key
  rw [userKey_eq_map, userKey_eq_map]
  exact interchangeable_fold _ _ h

theorem getUser_interchangeable_same_instance_witness :
    getUser (getUser exampleClient "John Smith".data).1 "JOHN_SMITH".data =
      ((getUser exampleClient "John Smith".data).1,
       (getUser exampleClient "John Smith".data).2) :=
  (getUser_interchangeable_same_instance exampleClient "John Smith".data
    "JOHN_SMITH".data).1 (by decide)

/-- Normalized form of a `users`-cache key: at most 28 characters, no
space, no newline and no uppercase ASCII letter (the image of the case
fold contains none). -/
def isNormalizedUserKey (k : List Char) : Bool :=
  decide (k.length ≤ 28) &&
    k.all (fun c => !(c == ' ') && !(c == '\n') &&
      !(decide (65 ≤ c.toNat) && decide (c.toNat ≤ 90)))

/-- Every key `getUser` ever builds is in normalized form. -/
theorem userKey_isNormalized (l : List Char) : isNormalizedUserKey (userKey l) = true := by
  unfold isNormalizedUserKey
  rw [Bool.and_eq_true, userKey_eq_map]
  constructor
  · rw [decide_eq_true_iff, List.length_map]
    exact List.length_take_le 28 _
  · rw [List.all_eq_true]
    intro x hx
    rw [List.mem_map] at hx
    obtain ⟨a, ha, hax⟩ := hx
    have hnl : a ≠ '\n' := by
      have := List.mem_takeWhile_imp (List.take_subset 28 _ ha)
      simpa [truncAtNewline] using this
    have hbase : (if a = ' ' then '_' else a) ≠ ' ' ∧ (if a = ' ' then '_' else a) ≠ '\n' := by
      by_cases hsp : a = ' '
      · rw [if_pos hsp]; exact ⟨by decide, by decide⟩
      · rw [if_neg hsp]; exact ⟨hsp, hnl⟩
    subst hax
    simp only [Bool.and_eq_true, Bool.not_eq_true', beq_eq_false_iff_ne, ne_eq,
      Bool.and_eq_false_iff, decide_eq_false_iff_not]
    refine ⟨⟨?_, ?_⟩, ?_⟩
    · intro hsp
      exact hbase.1 ((jsCharToLower_eq_space_iff _).mp hsp)
    · intro hn
      exact hbase.2 ((jsCharToLower_eq_newline_iff _).mp hn)
    · have := jsCharToLower_not_upper (if a = ' ' then '_' else a)
      by_cases h65 : 65 ≤ (jsCharToLower (if a = ' ' then '_' else a)).toNat
      · right; intro h90; exact this ⟨h65, h90⟩
      · left; exact h65

/-- C10: keys of the `users` cache are always in normalized form —
lowercase (no uppercase ASCII letter), at most 28 characters, with no
space and no newline.  A freshly constructed client satisfies the
invariant (its cache is empty), and `getUser` — the only operation that
inserts into the cache — preserves it. -/
theorem users_cache_keys_normalized :
    (∀ u p h pt k c, banchoClientNew u p h pt k = .ok c →
      ∀ e ∈ c.users, isNormalizedUserKey e.1 = true) ∧
    (∀ (c : BanchoClient) (username : List Char),
      (∀ e ∈ c.users, isNormalizedUserKey e.1 = true) →
      ∀ e ∈ ((getUser c username).1).users, isNormalizedUserKey e.1 = true) := by
  constructor
  · intro u p h pt k c hc e he
    unfold banchoClientNew at hc
    by_cases hf : (jsFalsy u || jsFalsy p) = true
    · rw [if_pos hf] at hc; cases hc
    · rw [if_neg hf] at hc
      cases hc
      cases he
  · intro c username hinv e he
    unfold getUser at he
    cases hl : c.users.lookup (userKey username) with
    | some u =>
        rw [hl] at he
        exact hinv e he
    | none =>
        rw [hl] at he
        simp only [List.mem_cons] at he
        rcases he with he | he
        · rw [he]
          exact userKey_isNormalized username
        · exact hinv e he

theorem users_cache_keys_normalized_witness :
    ((getUser exampleClient "Some User With A Long Name 42!".data).1).users.all
      (fun e => isNormalizedUserKey e.1) = true := by
  rw [List.all_eq_true]
  exact users_cache_keys_normalized.2 exampleClient
    "Some User With A Long Name 42!".data (by decide)

/-- Prepend a character to the current (first) line of a decomposition:
it extends the first complete line if one exists, else the trailing
partial line. -/
def consLine (c : Char) : List (List Char) × List Char → List (List Char) × List Char
  | ([], r) => ([], c :: r)
  | (l :: ls, r) => ((c :: l) :: ls, r)

/-- Specification-level decomposition of a character stream into its
complete newline-terminated lines and the trailing partial line, by
structural recursion; used to characterise the framing loop. -/
def splitNL : List Char → List (List Char) × List Char
  | [] => ([], [])
  | c :: rest =>
      if c = '\n' then ([] :: (splitNL rest).1, (splitNL rest).2)
      else consLine c (splitNL rest)

theorem consLine_nil (c : Char) (r : List Char) : consLine c ([], r) = ([], c :: r) := rfl

theorem consLine_cons (c : Char) (l : List Char) (ls : List (List Char)) (r : List Char) :
    consLine c (l :: ls, r) = ((c :: l) :: ls, r) := rfl

theorem splitNL_cons_newline (rest : List Char) :
    splitNL ('\n' :: rest) = ([] :: (splitNL rest).1, (splitNL rest).2) := by
  simp [splitNL]

theorem splitNL_cons_ne (c : Char) (rest : List Char) (h : c ≠ '\n') :
    splitNL (c :: rest) = consLine c (splitNL rest) := by
  simp [splitNL, h]

theorem splitNL_no_newline (s : List Char) (h : '\n' ∉ s) : splitNL s = ([], s) := by
  induction s with
  | nil => rfl
  | cons c rest ih =>
      have hc : c ≠ '\n' := fun hh => h (hh ▸ List.mem_cons_self c rest)
      have hr : '\n' ∉ rest := fun hh => h (List.mem_cons_of_mem c hh)
      rw [splitNL_cons_ne c rest hc, ih hr, consLine_nil]

theorem splitNL_line (t r : List Char) (h : '\n' ∉ t) :
    splitNL (t ++ '\n' :: r) = (t :: (splitNL r).1, (splitNL r).2) := by
  induction t with
  | nil => rw [List.nil_append, splitNL_cons_newline]
  | cons a t' ih =>
      have ha : a ≠ '\n' := fun hh => h (hh ▸ List.mem_cons_self a t')
      have ht : '\n' ∉ t' := fun hh => h (List.mem_cons_of_mem a hh)
      rw [List.cons_append, splitNL_cons_ne a _ ha, ih ht, consLine_cons]

theorem extractLines_eq_splitNL (s : List Char) : extractLines s = splitNL s := by
  suffices H : ∀ (n : Nat) (s : List Char), s.length ≤ n → extractLines s = splitNL s from
    H s.length s le_rfl
  intro n
  induction n with
  | zero =>
      intro s hs
      have hnil : s = [] := List.length_eq_zero.mp (Nat.le_zero.mp hs)
      subst hnil
      rw [extractLines, dif_neg (List.not_mem_nil '\n')]
      rfl
  | succ n ih =>
      intro s hs
      by_cases h : '\n' ∈ s
      · have hne : s.dropWhile (fun c => c ≠ '\n') ≠ [] := by
          intro hnil
          have h7 := (List.dropWhile_eq_nil_iff.mp hnil) '\n' h
          simp at h7
        have hpos : 0 < (s.dropWhile (fun c => c ≠ '\n')).length := List.length_pos.mpr hne
        have hhead : (s.dropWhile (fun c => c ≠ '\n')).head hne = '\n' := by
          have hget := List.dropWhile_get_zero_not (fun c => c ≠ '\n') s hpos
          rw [List.get_mk_zero] at hget
          simpa using hget
        have hdecomp : s.takeWhile (fun c => c ≠ '\n') ++
            '\n' :: (s.dropWhile (fun c => c ≠ '\n')).tail = s := by
          conv_rhs => rw [← List.takeWhile_append_dropWhile (fun c => decide (c ≠ '\n')) s]
          congr 1
          rw [← List.head_cons_tail (s.dropWhile (fun c => c ≠ '\n')) hne, hhead,
            List.tail_cons]
        have htw : '\n' ∉ s.takeWhile (fun c => c ≠ '\n') := by
          intro hmem
          have := List.mem_takeWhile_imp hmem
          simp at this
        have hlen : (s.dropWhile (fun c => c ≠ '\n')).tail.length ≤ n := by
          have h1 : (s.dropWhile (fun c => c ≠ '\n')).length ≤ s.length :=
            (List.dropWhile_sublist _).length_le
          simp only [List.length_tail]
          omega
        rw [extractLines, dif_pos h]
        show (s.takeWhile (fun c => c ≠ '\n') ::
            (extractLines ((s.dropWhile (fun c => c ≠ '\n')).tail)).1,
          (extractLines ((s.dropWhile (fun c => c ≠ '\n')).tail)).2) = splitNL s
        rw [ih _ hlen]
        conv_rhs => rw [← hdecomp]
        rw [splitNL_line _ _ htw]
      · rw [extractLines, dif_neg h, splitNL_no_newline s h]

theorem splitNL_snd_no_newline (s : List Char) : '\n' ∉ (splitNL s).2 := by
  induction s with
  | nil => exact List.not_mem_nil _
  | cons c rest ih =>
      by_cases hc : c = '\n'
      · subst hc
        rw [splitNL_cons_newline]
        exact ih
      · rw [splitNL_cons_ne c rest hc]
        rcases hsp : splitNL rest with ⟨ls, r⟩
        rw [hsp] at ih
        cases ls with
        | nil =>
            rw [consLine_nil]
            intro hmem
            rcases List.mem_cons.mp hmem with hh | hh
            · exact hc hh.symm
            · exact ih hh
        | cons l ls' =>
            rw [consLine_cons]
            exact ih

theorem splitNL_fst_no_newline (s : List Char) :
    ∀ l ∈ (splitNL s).1, '\n' ∉ l := by
  induction s with
  | nil => simp [splitNL]
  | cons c rest ih =>
      by_cases hc : c = '\n'
      · subst hc
        rw [splitNL_cons_newline]
        intro l hl
        rcases List.mem_cons.mp hl with hl | hl
        · rw [hl]
          exact List.not_mem_nil '\n'
        · exact ih l hl
      · rw [splitNL_cons_ne c rest hc]
        rcases hsp : splitNL rest with ⟨ls, r⟩
        rw [hsp] at ih
        cases ls with
        | nil =>
            rw [consLine_nil]
            intro l hl
            exact absurd hl (List.not_mem_nil l)
        | cons l0 ls' =>
            rw [consLine_cons]
            intro l hl
            rcases List.mem_cons.mp hl with hl | hl
            · rw [hl]
              intro hmem
              rcases List.mem_cons.mp hmem with hh | hh
              · exact hc hh.symm
              · exact ih l0 (List.mem_cons_self l0 ls') hh
            · exact ih l (List.mem_cons_of_mem l0 hl)

theorem splitNL_join (s : List Char) :
    ((splitNL s).1.map (fun l => l ++ ['\n'])).flatten ++ (splitNL s).2 = s := by
  induction s with
  | nil => rfl
  | cons c rest ih =>
      by_cases hc : c = '\n'
      · subst hc
        rw [splitNL_cons_newline]
        simpa [List.append_assoc] using ih
      · rw [splitNL_cons_ne c rest hc]
        rcases hsp : splitNL rest with ⟨ls, r⟩
        rw [hsp] at ih
        cases ls with
        | nil =>
            rw [consLine_nil]
            simpa using ih
        | cons l ls' =>
            rw [consLine_cons]
            simp only [List.map_cons, List.flatten_cons, List.cons_append,
              List.append_assoc, List.singleton_append] at ih ⊢
            rw [ih]

theorem splitNL_append (a b : List Char) :
    splitNL (a ++ b) =
      ((splitNL a).1 ++ (splitNL ((splitNL a).2 ++ b)).1,
       (splitNL ((splitNL a).2 ++ b)).2) := by
  induction a generalizing b with
  | nil => simp [splitNL]
  | cons c a' ih =>
      rw [List.cons_append]
      by_cases hc : c = '\n'
      · subst hc
        rw [splitNL_cons_newline, splitNL_cons_newline, ih]
        simp
      · rw [splitNL_cons_ne c _ hc, splitNL_cons_ne c a' hc, ih]
        rcases hsp : splitNL a' with ⟨ls, r⟩
        cases ls with
        | nil =>
            simp only [consLine_nil, List.nil_append, List.cons_append]
            rw [splitNL_cons_ne c _ hc]
        | cons l ls' =>
            simp [consLine_cons, List.cons_append]

/-- Carriage-return stripping distributes over concatenation. -/
theorem stripCR_append (a b : List Char) : stripCR (a ++ b) = stripCR a ++ stripCR b :=
  List.filter_append a b

theorem foldl_onData (chunks : List (List Char)) (ls : List (List Char))
    (buf : List Char) (h : '\n' ∉ buf) :
    chunks.foldl onData (ls, buf) =
      (ls ++ (splitNL (buf ++ stripCR chunks.flatten)).1,
       (splitNL (buf ++ stripCR chunks.flatten)).2) := by
  induction chunks generalizing ls buf with
  | nil =>
      simp [stripCR, splitNL_no_newline buf h]
  | cons ch rest ih =>
      rw [List.foldl_cons]
      have hstep : onData (ls, buf) ch =
          (ls ++ (splitNL (buf ++ stripCR ch)).1, (splitNL (buf ++ stripCR ch)).2) := by
        unfold onData
        rw [extractLines_eq_splitNL]
      rw [hstep, ih _ _ (splitNL_snd_no_newline _)]
      rw [List.flatten_cons, stripCR_append, ← List.append_assoc]
      rw [splitNL_append (buf ++ stripCR ch) (stripCR rest.flatten)]
      simp [List.append_assoc]


/-- C8: feeding any sequence of socket chunks through the framer yields
exactly the complete newline-delimited lines of the carriage-return-
stripped concatenation of the chunks, in order, with the partial trailing
line (newline-free, like every delivered line) left buffered — so the
delivered lines do not depend on how the byte stream was partitioned into
reads. -/
theorem framer_partition_independent (chunks : List (List Char)) :
    processChunks chunks = extractLines (stripCR chunks.flatten) ∧
    ((processChunks chunks).1.map (fun l => l ++ ['\n'])).flatten ++
        (processChunks chunks).2 = stripCR chunks.flatten ∧
    (∀ l ∈ (processChunks chunks).1, '\n' ∉ l) ∧
    '\n' ∉ (processChunks chunks).2 := by
  have h0 : processChunks chunks = splitNL (stripCR chunks.flatten) := by
    unfold processChunks
    rw [foldl_onData chunks [] [] (List.not_mem_nil '\n')]
    simp
  refine ⟨?_, ?_, ?_, ?_⟩
  · rw [h0, extractLines_eq_splitNL]
  · rw [h0]
    exact splitNL_join _
  · rw [h0]
    exact splitNL_fst_no_newline _
  · rw [h0]
    exact splitNL_snd_no_newline _

end Bancho
